import Mathlib

/-
Verification of the supermarket sales service (FastAPI + SQLAlchemy, app/main.py
and app/models.py): a catalog of products, a ledger of sales, and a daily
aggregation report.

Modelling choices (shallow embedding):
- Prices and sale totals (Python floats used as exact decimals in the code's
  arithmetic `total = product.price * quantity`) are modelled as rationals ℚ.
- Timestamps (naive `datetime` values with microsecond precision) are modelled
  as integer microsecond counts; a calendar day `d` is the half-open block of
  `usPerDay` microseconds starting at `d * usPerDay`.
- The database session is modelled as an explicit `Store` value; each handler
  takes the store and returns its result together with the (possibly updated)
  store.  `db.commit()` is the returned store; a handler that raises an
  HTTPException returns `Except.error` and the unchanged store.
- Primary-key assignment by SQLite is modelled by the `nextProductId` /
  `nextSaleId` counters.
-/

namespace Supermarket

/-- Number of microseconds in one calendar day. -/
def usPerDay : Int := 86400000000

/-- Row of the `products` table (app/models.py, class Product). -/
structure Product where
  id : Nat
  name : String
  price : ℚ
  created_at : Int
deriving Repr, DecidableEq

/-- Row of the `sales` table (app/models.py, class Sale). -/
structure Sale where
  id : Nat
  product_id : Nat
  quantity : Nat
  total : ℚ
  created_at : Int
deriving Repr, DecidableEq

/-- The whole relational store: both tables plus the primary-key counters. -/
structure Store where
  products : List Product
  sales : List Sale
  nextProductId : Nat
  nextSaleId : Nat
deriving Repr, DecidableEq

/-- The store right after `init_db` on a fresh database: both tables empty. -/
def Store.empty : Store := ⟨[], [], 1, 1⟩

/-- The two client-error outcomes raised by the handlers:
HTTP 400 "Product already exists" and HTTP 404 "Product not found". -/
inductive ApiError where
  | conflictError
  | notFoundError
deriving Repr, DecidableEq

/-- Handler `create_product` (app/main.py): looks up an existing product with
the same name (`db.query(Product).filter(Product.name == payload.name).first()`);
on a hit raises 400, otherwise inserts a new row and returns it. -/
def create_product (s : Store) (name : String) (price : ℚ) (now : Int) :
    Except ApiError Product × Store :=
  match s.products.find? (fun p => decide (p.name = name)) with
  | some _ => (.error .conflictError, s)
  | none =>
      let p : Product := ⟨s.nextProductId, name, price, now⟩
      (.ok p, { s with products := s.products ++ [p],
                       nextProductId := s.nextProductId + 1 })

/-- Primary-key lookup `db.get(Product, payload.product_id)`. -/
def findProduct (s : Store) (pid : Nat) : Option Product :=
  s.products.find? (fun p => decide (p.id = pid))

/-- Handler `create_sale` (app/main.py): resolves the product by primary key;
on a miss raises 404, otherwise computes `total = product.price * quantity`,
inserts the sale row stamped with the current time, and returns it. -/
def create_sale (s : Store) (pid : Nat) (qty : Nat) (now : Int) :
    Except ApiError Sale × Store :=
  match findProduct s pid with
  | none => (.error .notFoundError, s)
  | some product =>
      let sale : Sale := ⟨s.nextSaleId, product.id, qty,
                          product.price * (qty : ℚ), now⟩
      (.ok sale, { s with sales := s.sales ++ [sale],
                          nextSaleId := s.nextSaleId + 1 })

/-- Handler `list_products` (app/main.py):
`db.query(Product).order_by(Product.id).all()`. -/
def list_products (s : Store) : List Product × Store :=
  (s.products.mergeSort (fun a b => decide (a.id ≤ b.id)), s)

/-- Handler `list_sales` (app/main.py):
`db.query(Sale).order_by(Sale.created_at.desc()).all()`. -/
def list_sales (s : Store) : List Sale × Store :=
  (s.sales.mergeSort (fun a b => decide (b.created_at ≤ a.created_at)), s)

/-- Response body of `daily_report`. -/
structure DailyReport where
  date : Int
  total_revenue : ℚ
  total_items : Nat
deriving Repr, DecidableEq

/-- Microsecond timestamp of `datetime.combine(d, datetime.min.time())`:
day `d` at 00:00:00.000000. -/
def startOfDay (d : Int) : Int := d * usPerDay

/-- Microsecond timestamp of `datetime.combine(d, datetime.max.time())`:
day `d` at 23:59:59.999999. -/
def endOfDay (d : Int) : Int := d * usPerDay + (usPerDay - 1)

/-- The filter of the daily-report query:
`Sale.created_at >= start_dt, Sale.created_at <= end_dt`. -/
def inReportRange (d : Int) (sa : Sale) : Bool :=
  decide (startOfDay d ≤ sa.created_at) && decide (sa.created_at ≤ endOfDay d)

/-- Handler `daily_report` (app/main.py) for an explicit day `d`: filters the
sales to the inclusive interval `[start_dt, end_dt]` and sums `total` and
`quantity` over the filtered rows. -/
def daily_report (s : Store) (d : Int) : DailyReport :=
  let q := s.sales.filter (inReportRange d)
  { date := d
    total_revenue := (q.map Sale.total).sum
    total_items := (q.map Sale.quantity).sum }

/-- Calendar day of a microsecond instant (floor division). -/
def dayOfInstant (t : Int) : Int := t.fdiv usPerDay

/-- The value of `date.today()` at UTC instant `t` on a server whose local
clock is offset from UTC by `offset` microseconds. -/
def localToday (offset t : Int) : Int := dayOfInstant (t + offset)

/-- Handler `daily_report` with the day argument omitted: the code defaults to
`d = date.today()`, the server-local calendar date at evaluation time. -/
def daily_report_default (s : Store) (offset t : Int) : DailyReport :=
  daily_report s (localToday offset t)

/-- States reachable from a fresh database through the API operations. -/
inductive Reachable : Store → Prop where
  | empty : Reachable Store.empty
  | createProduct {s : Store} (name : String) (price : ℚ) (now : Int) :
      Reachable s → Reachable (create_product s name price now).2
  | createSale {s : Store} (pid qty : Nat) (now : Int) :
      Reachable s → Reachable (create_sale s pid qty now).2
  | listProducts {s : Store} : Reachable s → Reachable (list_products s).2
  | listSales {s : Store} : Reachable s → Reachable (list_sales s).2
  | dailyReport {s : Store} (d : Int) : Reachable s → Reachable s

/-- Referential and arithmetic consistency of the ledger: every sale points at
a product present in the catalog and its total is that product's price times
its quantity. -/
def SaleConsistent (s : Store) : Prop :=
  ∀ sa ∈ s.sales, ∃ p ∈ s.products,
    p.id = sa.product_id ∧ sa.total = p.price * (sa.quantity : ℚ)

/-- A timestamp lies on calendar day `d` exactly when it lies in the
inclusive microsecond interval the report queries. -/
theorem dayOf_eq_iff (t d : Int) :
    dayOfInstant t = d ↔ startOfDay d ≤ t ∧ t ≤ endOfDay d := by
  have h1 := Int.fdiv_add_fmod t usPerDay
  have h2 : 0 ≤ t.fmod usPerDay := Int.fmod_nonneg' t (by norm_num [usPerDay])
  have h3 : t.fmod usPerDay < usPerDay :=
    Int.fmod_lt_of_pos t (by norm_num [usPerDay])
  unfold dayOfInstant startOfDay endOfDay usPerDay at *
  constructor
  · rintro rfl
    omega
  · intro hb
    omega

/- Concrete fixtures used by the witness theorems. -/

/-- A fixture product: Apple at price 3/2, created at instant 0. -/
def appleProduct : Product := ⟨1, "Apple", 3 / 2, 0⟩

/-- A fixture store holding exactly the Apple product and no sales. -/
def demoStore : Store := ⟨[appleProduct], [], 2, 1⟩

/-- C1: if a product with the requested id exists and the quantity is
positive, `create_sale` succeeds and both the returned sale and the persisted
row carry total exactly equal to that product's price times the quantity. -/
theorem create_sale_total_exact (s : Store) (pid qty : Nat) (now : Int)
    (hq : 0 < qty) (hex : ∃ p ∈ s.products, p.id = pid) :
    ∃ (p : Product) (sale : Sale), p ∈ s.products ∧ p.id = pid ∧
      (create_sale s pid qty now).1 = Except.ok sale ∧
      sale.total = p.price * (qty : ℚ) ∧
      sale ∈ (create_sale s pid qty now).2.sales := by
  have hsome : (s.products.find? (fun p => decide (p.id = pid))).isSome := by
    rw [List.find?_isSome]
    obtain ⟨p, hp, hid⟩ := hex
    exact ⟨p, hp, by simpa using hid⟩
  obtain ⟨p, hfind⟩ := Option.isSome_iff_exists.mp hsome
  have hmem : p ∈ s.products := List.mem_of_find?_eq_some hfind
  have hid : p.id = pid := by simpa using List.find?_some hfind
  refine ⟨p, ⟨s.nextSaleId, p.id, qty, p.price * (qty : ℚ), now⟩,
    hmem, hid, ?_, rfl, ?_⟩
  · simp [create_sale, findProduct, hfind]
  · simp [create_sale, findProduct, hfind]

/-- C1 witness: a concrete successful sale on the fixture store. -/
theorem create_sale_total_exact_witness :
    (0 < 4 ∧ ∃ p ∈ demoStore.products, p.id = 1) ∧
    ∃ (p : Product) (sale : Sale), p ∈ demoStore.products ∧ p.id = 1 ∧
      (create_sale demoStore 1 4 5).1 = Except.ok sale ∧
      sale.total = p.price * ((4 : Nat) : ℚ) ∧
      sale ∈ (create_sale demoStore 1 4 5).2.sales :=
  ⟨⟨by decide, ⟨appleProduct, List.Mem.head _, rfl⟩⟩,
    create_sale_total_exact demoStore 1 4 5 (by decide)
      ⟨appleProduct, List.Mem.head _, rfl⟩⟩

/-- C3: creating a product whose name already exists fails with the conflict
error, leaves the store unchanged, and `list_products` returns the same
sequence before and after the failed attempt. -/
theorem create_product_conflict (s : Store) (name : String) (price : ℚ)
    (now : Int) (hdup : ∃ p ∈ s.products, p.name = name) :
    (create_product s name price now).1 = Except.error ApiError.conflictError ∧
    (create_product s name price now).2 = s ∧
    (list_products (create_product s name price now).2).1
      = (list_products s).1 := by
  have hsome : (s.products.find? (fun p => decide (p.name = name))).isSome := by
    rw [List.find?_isSome]
    obtain ⟨p, hp, hn⟩ := hdup
    exact ⟨p, hp, by simpa using hn⟩
  obtain ⟨p, hfind⟩ := Option.isSome_iff_exists.mp hsome
  refine ⟨?_, ?_, ?_⟩ <;> simp [create_product, hfind]

/-- C3 witness: re-creating Apple on the fixture store fails and changes
nothing. -/
theorem create_product_conflict_witness :
    (∃ p ∈ demoStore.products, p.name = "Apple") ∧
    ((create_product demoStore "Apple" 2 7).1
        = Except.error ApiError.conflictError ∧
      (create_product demoStore "Apple" 2 7).2 = demoStore ∧
      (list_products (create_product demoStore "Apple" 2 7).2).1
        = (list_products demoStore).1) :=
  ⟨⟨appleProduct, List.Mem.head _, rfl⟩,
    create_product_conflict demoStore "Apple" 2 7
      ⟨appleProduct, List.Mem.head _, rfl⟩⟩

/-- C4: creating a sale for an unknown product id fails with the not-found
error, leaves the store unchanged, and `list_sales` returns the same sequence
before and after the failed attempt. -/
theorem create_sale_not_found (s : Store) (pid qty : Nat) (now : Int)
    (hq : 0 < qty) (hnone : ∀ p ∈ s.products, p.id ≠ pid) :
    (create_sale s pid qty now).1 = Except.error ApiError.notFoundError ∧
    (create_sale s pid qty now).2 = s ∧
    (list_sales (create_sale s pid qty now).2).1 = (list_sales s).1 := by
  have hfind : findProduct s pid = none := by
    rw [findProduct, List.find?_eq_none]
    intro p hp
    simpa using hnone p hp
  refine ⟨?_, ?_, ?_⟩ <;> simp [create_sale, hfind]

/-- C4 witness: selling product id 2 on the fixture store fails and changes
nothing. -/
theorem create_sale_not_found_witness :
    (0 < 3 ∧ ∀ p ∈ demoStore.products, p.id ≠ 2) ∧
    ((create_sale demoStore 2 3 9).1
        = Except.error ApiError.notFoundError ∧
      (create_sale demoStore 2 3 9).2 = demoStore ∧
      (list_sales (create_sale demoStore 2 3 9).2).1
        = (list_sales demoStore).1) :=
  ⟨⟨by decide, by intro p hp; fin_cases hp; decide⟩,
    create_sale_not_found demoStore 2 3 9 (by decide)
      (by intro p hp; fin_cases hp; decide)⟩

/-- C7: with a fresh non-empty name and positive price, `create_product`
succeeds, returns the new product with the assigned id and timestamp, and a
subsequent `list_products` contains that name exactly once. -/
theorem create_product_ok (s : Store) (name : String) (price : ℚ) (now : Int)
    (hname : name ≠ "") (hprice : 0 < price)
    (hfresh : ∀ p ∈ s.products, p.name ≠ name) :
    ∃ p : Product,
      (create_product s name price now).1 = Except.ok p ∧
      p.name = name ∧ p.price = price ∧
      p.id = s.nextProductId ∧ p.created_at = now ∧
      ((list_products (create_product s name price now).2).1.countP
        (fun q => decide (q.name = name))) = 1 := by
  have hfind : s.products.find? (fun p => decide (p.name = name)) = none := by
    rw [List.find?_eq_none]
    intro p hp
    simpa using hfresh p hp
  refine ⟨⟨s.nextProductId, name, price, now⟩, ?_, rfl, rfl, rfl, rfl, ?_⟩
  · simp [create_product, hfind]
  · have h2 : (create_product s name price now).2.products
        = s.products ++ [⟨s.nextProductId, name, price, now⟩] := by
      simp [create_product, hfind]
    have h0 : s.products.countP (fun q => decide (q.name = name)) = 0 := by
      rw [List.countP_eq_zero]
      intro p hp
      simpa using hfresh p hp
    rw [list_products]
    rw [(List.mergeSort_perm _ _).countP_eq, h2, List.countP_append, h0]
    simp [List.countP_cons]

/-- C7 witness: creating Banana on the fixture store succeeds and Banana then
appears exactly once. -/
theorem create_product_ok_witness :
    ("Banana" ≠ "" ∧ 0 < (2 : ℚ) ∧
      ∀ p ∈ demoStore.products, p.name ≠ "Banana") ∧
    ∃ p : Product,
      (create_product demoStore "Banana" 2 11).1 = Except.ok p ∧
      p.name = "Banana" ∧ p.price = 2 ∧
      p.id = demoStore.nextProductId ∧ p.created_at = 11 ∧
      ((list_products (create_product demoStore "Banana" 2 11).2).1.countP
        (fun q => decide (q.name = "Banana"))) = 1 :=
  ⟨⟨by decide, by norm_num, by intro p hp; fin_cases hp; decide⟩,
    create_product_ok demoStore "Banana" 2 11 (by decide) (by norm_num)
      (by intro p hp; fin_cases hp; decide)⟩

/-- Helper: the report's interval filter agrees with bucketing sales by
calendar day. -/
theorem filter_inReportRange_eq (s : Store) (d : Int) :
    s.sales.filter (inReportRange d)
      = s.sales.filter (fun sa => decide (dayOfInstant sa.created_at = d)) := by
  apply List.filter_congr
  intro sa _
  rw [inReportRange, ← Bool.decide_and]
  exact decide_eq_decide.mpr (dayOf_eq_iff sa.created_at d).symm

/-- C2: `daily_report` always returns a value whose revenue and item totals
are the sums of `total` and `quantity` over exactly the sales whose timestamp
lies on the requested calendar day, equivalently in the inclusive interval
from 00:00:00.000000 to 23:59:59.999999 of that day; both sums are 0 when no
sale lies on that day, and a sale one microsecond past the end of the day is
excluded from the filter. -/
theorem daily_report_spec (s : Store) (d : Int) :
    (daily_report s d).date = d ∧
    (daily_report s d).total_revenue =
      ((s.sales.filter (fun sa => decide (dayOfInstant sa.created_at = d))).map
        Sale.total).sum ∧
    (daily_report s d).total_items =
      ((s.sales.filter (fun sa => decide (dayOfInstant sa.created_at = d))).map
        Sale.quantity).sum ∧
    (∀ t : Int, dayOfInstant t = d ↔ startOfDay d ≤ t ∧ t ≤ endOfDay d) ∧
    ((∀ sa ∈ s.sales, dayOfInstant sa.created_at ≠ d) →
      (daily_report s d).total_revenue = 0 ∧
      (daily_report s d).total_items = 0) ∧
    (∀ sa : Sale, sa.created_at = endOfDay d + 1 → inReportRange d sa = false) := by
  have hfil := filter_inReportRange_eq s d
  refine ⟨rfl, ?_, ?_, fun t => dayOf_eq_iff t d, ?_, ?_⟩
  · rw [daily_report]
    simp only [hfil]
  · rw [daily_report]
    simp only [hfil]
  · intro hnone
    have hnil : s.sales.filter (inReportRange d) = [] := by
      rw [hfil, List.filter_eq_nil_iff]
      intro sa hsa
      simpa using hnone sa hsa
    rw [daily_report]
    simp [hnil]
  · intro sa hsa
    rw [inReportRange]
    have : ¬ sa.created_at ≤ endOfDay d := by omega
    simp [this]

/-- Invariant preservation by `create_product`: the ledger is untouched and
the catalog only grows. -/
theorem saleConsistent_create_product (s : Store) (name : String) (price : ℚ)
    (now : Int) (h : SaleConsistent s) :
    SaleConsistent (create_product s name price now).2 := by
  intro sa hsa
  cases hfind : s.products.find? (fun p => decide (p.name = name)) with
  | some p =>
      simp only [create_product, hfind] at hsa ⊢
      exact h sa hsa
  | none =>
      simp only [create_product, hfind] at hsa ⊢
      obtain ⟨p, hp, hid, htot⟩ := h sa hsa
      exact ⟨p, List.mem_append_left _ hp, hid, htot⟩

/-- Invariant preservation by `create_sale`: the appended sale points at the
resolved product and carries the computed total. -/
theorem saleConsistent_create_sale (s : Store) (pid qty : Nat) (now : Int)
    (h : SaleConsistent s) :
    SaleConsistent (create_sale s pid qty now).2 := by
  intro sa hsa
  cases hfind : findProduct s pid with
  | none =>
      simp only [create_sale, hfind] at hsa ⊢
      exact h sa hsa
  | some p =>
      simp only [create_sale, hfind] at hsa ⊢
      rcases List.mem_append.mp hsa with hold | hnew
      · exact h sa hold
      · have hp : p ∈ s.products := List.mem_of_find?_eq_some hfind
        have hsa' : sa = ⟨s.nextSaleId, p.id, qty, p.price * (qty : ℚ), now⟩ := by
          simpa using hnew
        subst hsa'
        exact ⟨p, hp, rfl, rfl⟩

/-- C5: in every state reachable from the fresh database through the API
operations, every persisted sale references a product present in the catalog
and its total equals that product's (immutable) price times its quantity. -/
theorem reachable_saleConsistent (s : Store) (h : Reachable s) :
    SaleConsistent s := by
  induction h with
  | empty =>
      intro sa hsa
      simp [Store.empty] at hsa
  | createProduct name price now _ ih =>
      exact saleConsistent_create_product _ name price now ih
  | createSale pid qty now _ ih =>
      exact saleConsistent_create_sale _ pid qty now ih
  | listProducts _ ih => exact ih
  | listSales _ ih => exact ih
  | dailyReport d _ ih => exact ih

/-- C5 witness: consistency of the concrete state reached by creating Apple
and then selling four of them. -/
theorem reachable_saleConsistent_witness :
    SaleConsistent
      (create_sale (create_product Store.empty "Apple" (3 / 2) 0).2 1 4 5).2 :=
  reachable_saleConsistent _
    (Reachable.createSale 1 4 5
      (Reachable.createProduct "Apple" (3 / 2) 0 Reachable.empty))

/-- C6: a sale is stamped with the UTC clock (`datetime.utcnow`), while the
no-argument report buckets by the server-local calendar date (`date.today()`);
the fresh sale falls inside the default report's day interval exactly when the
UTC calendar day of the instant equals the server-local calendar day. -/
theorem sale_utc_vs_local_report (s : Store) (pid qty : Nat) (offset t : Int)
    (sale : Sale) (h : (create_sale s pid qty t).1 = Except.ok sale) :
    sale.created_at = t ∧
    (inReportRange (localToday offset t) sale = true ↔
      dayOfInstant t = localToday offset t) := by
  cases hfind : findProduct s pid with
  | none => simp [create_sale, hfind] at h
  | some p =>
      simp only [create_sale, hfind] at h
      injection h with h'
      subst h'
      refine ⟨rfl, ?_⟩
      rw [inReportRange, Bool.and_eq_true, decide_eq_true_eq, decide_eq_true_eq]
      exact (dayOf_eq_iff t (localToday offset t)).symm

/-- C6 witness: with zero UTC offset, the fixture sale at instant 5 is on the
reported day. -/
theorem sale_utc_vs_local_report_witness :
    ((create_sale demoStore 1 4 5).1
        = Except.ok (⟨1, 1, 4, appleProduct.price * ((4 : Nat) : ℚ), 5⟩ : Sale)) ∧
    ((⟨1, 1, 4, appleProduct.price * ((4 : Nat) : ℚ), 5⟩ : Sale).created_at = 5 ∧
      (inReportRange (localToday 0 5)
          (⟨1, 1, 4, appleProduct.price * ((4 : Nat) : ℚ), 5⟩ : Sale) = true ↔
        dayOfInstant 5 = localToday 0 5)) :=
  ⟨rfl, sale_utc_vs_local_report demoStore 1 4 0 5 _ rfl⟩

/-- C8: `list_products` returns all products, sorted in ascending id order
(creation order). -/
theorem list_products_sorted (s : Store) :
    (list_products s).1.Sorted (fun a b => a.id ≤ b.id) ∧
    (list_products s).1.Perm s.products := by
  constructor
  · have h : (s.products.mergeSort (fun a b => decide (a.id ≤ b.id))).Pairwise
        (fun a b => decide (a.id ≤ b.id) = true) :=
      List.sorted_mergeSort
        (fun a b c hab hbc => by
          simp only [decide_eq_true_eq] at hab hbc ⊢
          omega)
        (fun a b => by
          simp only [Bool.or_eq_true, decide_eq_true_eq]
          exact Nat.le_total a.id b.id)
        s.products
    exact h.imp (fun hab => by simpa using hab)
  · exact List.mergeSort_perm s.products _

/-- C9: `list_sales` returns all sales, sorted in descending timestamp order
(most recent first); nothing beyond the timestamp key is constrained. -/
theorem list_sales_sorted (s : Store) :
    (list_sales s).1.Sorted (fun a b => b.created_at ≤ a.created_at) ∧
    (list_sales s).1.Perm s.sales := by
  constructor
  · have h : (s.sales.mergeSort
        (fun a b => decide (b.created_at ≤ a.created_at))).Pairwise
        (fun a b => decide (b.created_at ≤ a.created_at) = true) :=
      List.sorted_mergeSort
        (fun a b c hab hbc => by
          simp only [decide_eq_true_eq] at hab hbc ⊢
          omega)
        (fun a b => by
          simp only [Bool.or_eq_true, decide_eq_true_eq]
          exact Int.le_total b.created_at a.created_at)
        s.sales
    exact h.imp (fun hab => by simpa using hab)
  · exact List.mergeSort_perm s.sales _

/-- C10: the two list endpoints leave the store untouched, so calling either
twice in a row with no intervening write returns identical results. -/
theorem list_endpoints_idempotent (s : Store) :
    (list_products s).2 = s ∧ (list_sales s).2 = s ∧
    (list_products (list_products s).2).1 = (list_products s).1 ∧
    (list_sales (list_sales s).2).1 = (list_sales s).1 :=
  ⟨rfl, rfl, rfl, rfl⟩

end Supermarket
